import Mathlib

/-!
Verification development for the serverless image proxy.

The repository has two processing stages:

* `src/functions/url-rewrite/index.js` — a CloudFront Function that normalizes
  a viewer request `?url=...&format=...&width=...&height=...&quality=...` into
  the canonical path `/proxy/{base64url(url)}/{operations}`.
* `src/functions/image-processing/index.mjs` — a Lambda handler that decodes
  the path, validates the source URL against SSRF, fetches, transforms and
  optionally persists the result to S3, with an oversize redirect policy.

JavaScript strings are modelled as lists of UTF-16 code units (`List Nat`),
and the string operations the code uses (`charCodeAt`-based base64,
`Buffer.toString`, `parseInt`, `toLowerCase`, `indexOf`, regexes) are given
executable shallow embeddings below.  All definitions are translated from the
source files; definitions that model runtime library behaviour (Node's
`Buffer` base64 codec, UTF-8 decoding, the WHATWG `URL` parser) are marked as
such in their doc comments.
-/

namespace ImageProxy

/-! ## JS string primitives -/

/-- ASCII lower-casing of a single character.  Models `String.prototype.toLowerCase`
on the ASCII range, which is the only range relevant to the parameter keys and
format values compared by the url-rewrite function. -/
def lcChar (c : Char) : Char :=
  if 'A' ≤ c ∧ c ≤ 'Z' then Char.ofNat (c.toNat + 32) else c

/-- `s.toLowerCase()` (ASCII model). -/
def asciiLower (s : String) : String :=
  String.mk (s.data.map lcChar)

/-- `haystack.indexOf(needle) !== -1`: substring containment test. -/
def jsIncludesL (haystack needle : List Char) : Bool :=
  haystack.tails.any (fun t => needle.isPrefixOf t)

/-- `haystack.indexOf(needle) !== -1` on strings. -/
def jsIncludes (haystack needle : String) : Bool :=
  jsIncludesL haystack.data needle.data

/-- `s.indexOf(p) === 0` / `s.startsWith(p)`. -/
def startsWithStr (s p : String) : Bool :=
  p.data.isPrefixOf s.data

/-- The UTF-16 code units of a string: JS `charCodeAt` values in order.
Code points above U+FFFF become a surrogate pair, as in JavaScript. -/
def jsCodeUnits (s : String) : List Nat :=
  (s.data.map (fun c =>
    if c.toNat < 65536 then [c.toNat]
    else [55296 + (c.toNat - 65536) / 1024, 56320 + (c.toNat - 65536) % 1024])).flatten

/-- ASCII-insensitive match of one code unit against a lower-case ASCII letter,
as the non-Unicode regex `i` flag canonicalizes (ASCII case folding only). -/
def unitIsChar (u : Nat) (c : Char) : Bool :=
  (if 65 ≤ u ∧ u ≤ 90 then u + 32 else u) = c.toNat

/-- Regex `.` (without the `s` flag) matches any code unit except the four
line terminators. -/
def isDotUnit (u : Nat) : Bool :=
  ¬(u = 10 ∨ u = 13 ∨ u = 8232 ∨ u = 8233)

/-- Tail of the regex `^https?:\/\/.+/i` after the optional `s`:
`://` followed by at least one `.`-matching unit. -/
def afterScheme : List Nat → Bool
  | c :: s1 :: s2 :: d :: _ => c = 58 && s1 = 47 && s2 = 47 && isDotUnit d
  | _ => false

/-- The url-rewrite / image-processing validation regex `^https?:\/\/.+` with
the `i` flag, evaluated on UTF-16 code units. -/
def matchesHttpRegex : List Nat → Bool
  | h :: t1 :: t2 :: p :: rest =>
    unitIsChar h 'h' && unitIsChar t1 't' && unitIsChar t2 't' && unitIsChar p 'p' &&
    (match rest with
     | x :: rest2 => if unitIsChar x 's' then afterScheme rest2 else afterScheme (x :: rest2)
     | [] => false)
  | _ => false

/-- `imageUrl.match(/^https?:\/\/.+/i)` on a string value. -/
def matchesHttpRegexStr (s : String) : Bool :=
  matchesHttpRegex (jsCodeUnits s)

/-! ## `parseInt` -/

/-- JS `WhiteSpace`/`LineTerminator` code points skipped by `parseInt`
(the common ones; exotic Unicode spaces behave identically for our claims). -/
def isJsWsChar (c : Char) : Bool :=
  c.toNat = 9 ∨ c.toNat = 10 ∨ c.toNat = 11 ∨ c.toNat = 12 ∨ c.toNat = 13 ∨
  c.toNat = 32 ∨ c.toNat = 160 ∨ c.toNat = 65279 ∨ c.toNat = 8232 ∨ c.toNat = 8233

/-- Decimal digit value of a character. -/
def decDigitVal (c : Char) : Option Nat :=
  if '0' ≤ c ∧ c ≤ '9' then some (c.toNat - 48) else none

/-- Hexadecimal digit value of a character. -/
def hexDigitVal (c : Char) : Option Nat :=
  if '0' ≤ c ∧ c ≤ '9' then some (c.toNat - 48)
  else if 'a' ≤ c ∧ c ≤ 'f' then some (c.toNat - 87)
  else if 'A' ≤ c ∧ c ≤ 'F' then some (c.toNat - 55)
  else none

/-- Accumulate the longest digit run at the head of the list. -/
def digitsAux (f : Char → Option Nat) (base : Nat) : List Char → Nat → Nat
  | [], acc => acc
  | c :: rest, acc =>
    match f c with
    | some d => digitsAux f base rest (acc * base + d)
    | none => acc

/-- Longest digit run at the head of the list; `none` when there is no digit. -/
def digitsRun (f : Char → Option Nat) (base : Nat) (l : List Char) : Option Nat :=
  match l with
  | c :: _ =>
    match f c with
    | some _ => some (digitsAux f base l 0)
    | none => none
  | [] => none

/-- JS `parseInt(s)` (radix unspecified): skips leading whitespace, takes an
optional sign, recognizes a `0x`/`0X` hexadecimal prefix, otherwise parses the
longest decimal digit prefix; no digits ⇒ `NaN`, modelled as `none`. -/
def jsParseIntL (l0 : List Char) : Option Int :=
  let l := l0.dropWhile isJsWsChar
  let sign : Int := match l with | '-' :: _ => -1 | _ => 1
  let l2 : List Char := match l with
    | '-' :: r => r
    | '+' :: r => r
    | _ => l
  let mag : Option Nat := match l2 with
    | '0' :: 'x' :: r => digitsRun hexDigitVal 16 r
    | '0' :: 'X' :: r => digitsRun hexDigitVal 16 r
    | _ => digitsRun decDigitVal 10 l2
  mag.map (fun m => sign * (m : Int))

/-- JS `parseInt` on a string. -/
def jsParseInt (s : String) : Option Int :=
  jsParseIntL s.data

/-- JS `Number.prototype.toString` for integral values. -/
def intToStr (i : Int) : String :=
  toString i

/-! ## The url-rewrite function's custom base64 encoder
(`base64Encode` in `src/functions/url-rewrite/index.js`). -/

/-- The base64 alphabet string of the source. -/
def b64chars : List Char :=
  "ABCDEFGHIJKLMNOPQRSTUVWXYZabcdefghijklmnopqrstuvwxyz0123456789+/".data

/-- `base64chars.charAt(n)` for the sextet indices produced by the encoder. -/
def b64charAt (n : Nat) : Char :=
  b64chars.getD n 'A'

/-- The encoding loop of `base64Encode`: consumes `charCodeAt` values three at
a time, packs them with `(a << 16) | (b << 8) | c` and emits four alphabet
characters, padding with `'='` when fewer than three inputs were read. -/
def base64Encode : List Nat → List Char
  | [] => []
  | [a] =>
    let bitmap := ((a <<< 16) ||| (0 <<< 8)) ||| 0
    [b64charAt ((bitmap >>> 18) &&& 63), b64charAt ((bitmap >>> 12) &&& 63), '=', '=']
  | [a, b] =>
    let bitmap := ((a <<< 16) ||| (b <<< 8)) ||| 0
    [b64charAt ((bitmap >>> 18) &&& 63), b64charAt ((bitmap >>> 12) &&& 63),
     b64charAt ((bitmap >>> 6) &&& 63), '=']
  | a :: b :: c :: rest =>
    let bitmap := ((a <<< 16) ||| (b <<< 8)) ||| c
    b64charAt ((bitmap >>> 18) &&& 63) :: b64charAt ((bitmap >>> 12) &&& 63) ::
    b64charAt ((bitmap >>> 6) &&& 63) :: b64charAt (bitmap &&& 63) :: base64Encode rest

/-- `.replace(/\+/g, '-').replace(/\//g, '_')` on one character. -/
def encReplace (c : Char) : Char :=
  if c = '+' then '-' else if c = '/' then '_' else c

/-- `.replace(/=+$/, '')`: strip the maximal trailing run of `'='`. -/
def dropTrailingEq (l : List Char) : List Char :=
  (l.reverse.dropWhile (fun c => c = '=')).reverse

/-- The url-safe token produced by the url-rewrite function for a list of
`charCodeAt` values: custom base64, `+/` → `-_`, trailing `=` stripped. -/
def encodeToken (u : List Nat) : List Char :=
  dropTrailingEq ((base64Encode u).map encReplace)

/-- The url-safe token for a string source URL. -/
def encodeTokenStr (s : String) : String :=
  String.mk (encodeToken (jsCodeUnits s))

/-! ## The image-processing handler's decoder
(`Buffer.from(base64, 'base64').toString('utf-8')` after `-_` → `+/`). -/

/-- The handler's reverse substitution `-` → `+` and `_` → `/` on one
character. -/
def decReplace (c : Char) : Char :=
  if c = '-' then '+' else if c = '_' then '/' else c

/-- Index of a character in the base64 alphabet.  Models Node's forgiving
base64 decoder, which skips characters outside the alphabet. -/
def sextOf (c : Char) : Option Nat :=
  b64chars.findIdx? (fun x => x = c)

/-- Reassemble bytes from a sextet stream: groups of four sextets give three
bytes; a trailing group of three gives two bytes, of two gives one byte
(Node's handling of unpadded base64). -/
def b64groups : List Nat → List Nat
  | s0 :: s1 :: s2 :: s3 :: rest =>
    let n := s0 * 262144 + s1 * 4096 + s2 * 64 + s3
    n / 65536 % 256 :: n / 256 % 256 :: n % 256 :: b64groups rest
  | [s0, s1, s2] =>
    let x := s0 * 4096 + s1 * 64 + s2
    [x / 1024 % 256, x / 4 % 256]
  | [s0, s1] => [(s0 * 64 + s1) / 16 % 256]
  | _ => []

/-- Node `Buffer.from(str, 'base64')`: byte list of a base64 text. -/
def b64decode (l : List Char) : List Nat :=
  b64groups (l.filterMap sextOf)

/-- Is `b` a UTF-8 continuation byte? -/
def isCont (b : Nat) : Bool :=
  128 ≤ b ∧ b < 192

/-- One step of the UTF-8 decoder: decode the sequence led by `b`, using
`next` to decode whatever follows it. -/
def utf8Step (next : List Nat → List Nat) (b : Nat) (rest : List Nat) : List Nat :=
  if b < 128 then b :: next rest
  else if b < 194 then 65533 :: next rest
  else if b < 224 then
    match rest with
    | b1 :: rest2 =>
      if isCont b1 then ((b - 192) * 64 + (b1 - 128)) :: next rest2
      else 65533 :: next (b1 :: rest2)
    | [] => [65533]
  else if b < 240 then
    match rest with
    | b1 :: b2 :: rest3 =>
      if (if b = 224 then 160 ≤ b1 ∧ b1 < 192
          else if b = 237 then 128 ≤ b1 ∧ b1 < 160
          else isCont b1 = true) then
        if isCont b2 then
          ((b - 224) * 4096 + (b1 - 128) * 64 + (b2 - 128)) :: next rest3
        else 65533 :: next (b2 :: rest3)
      else 65533 :: next (b1 :: b2 :: rest3)
    | [b1] =>
      if (if b = 224 then 160 ≤ b1 ∧ b1 < 192
          else if b = 237 then 128 ≤ b1 ∧ b1 < 160
          else isCont b1 = true) then [65533]
      else 65533 :: next [b1]
    | [] => [65533]
  else if b < 245 then
    match rest with
    | b1 :: b2 :: b3 :: rest4 =>
      if (if b = 240 then 144 ≤ b1 ∧ b1 < 192
          else if b = 244 then 128 ≤ b1 ∧ b1 < 144
          else isCont b1 = true) then
        if isCont b2 then
          if isCont b3 then
            let cp := (b - 240) * 262144 + (b1 - 128) * 4096 + (b2 - 128) * 64 + (b3 - 128)
            (55296 + (cp - 65536) / 1024) :: (56320 + (cp - 65536) % 1024) :: next rest4
          else 65533 :: next (b3 :: rest4)
        else 65533 :: next (b2 :: b3 :: rest4)
      else 65533 :: next (b1 :: b2 :: b3 :: rest4)
    | [b1, b2] =>
      if (if b = 240 then 144 ≤ b1 ∧ b1 < 192
          else if b = 244 then 128 ≤ b1 ∧ b1 < 144
          else isCont b1 = true) then
        if isCont b2 then [65533] else 65533 :: next [b2]
      else 65533 :: next [b1, b2]
    | [b1] =>
      if (if b = 240 then 144 ≤ b1 ∧ b1 < 192
          else if b = 244 then 128 ≤ b1 ∧ b1 < 144
          else isCont b1 = true) then [65533]
      else 65533 :: next [b1]
    | [] => [65533]
  else 65533 :: next rest

/-- Fuel-driven worker for `utf8Decode` (the fuel is only a structural
termination device; it is set to the byte count, which always suffices since
every step consumes at least one byte before handing the remainder to the
smaller-fuel decoder). -/
def utf8DecodeAux : Nat → List Nat → List Nat
  | _, [] => []
  | 0, _ :: _ => []
  | fuel + 1, b :: rest => utf8Step (utf8DecodeAux fuel) b rest

/-- WHATWG/Node UTF-8 decoding of a byte list to UTF-16 code units, emitting
U+FFFD (65533) for invalid or truncated sequences.  Models
`Buffer.prototype.toString('utf-8')`. -/
def utf8Decode (l : List Nat) : List Nat :=
  utf8DecodeAux l.length l

/-- The image-processing handler's URL decoding (lines 152-158 of
`index.mjs`): `-_` → `+/`, base64-decode, interpret the bytes as UTF-8.
Returns the UTF-16 code units of the decoded JS string. -/
def decodeToken (t : List Char) : List Nat :=
  utf8Decode (b64decode (t.map decReplace))

/-! ## Edge stage: the url-rewrite CloudFront Function
(`handler` in `src/functions/url-rewrite/index.js`). -/

/-- A CloudFront Functions viewer request: `request.uri`, the `querystring`
object (unique keys, each entry's `.value`, in insertion order), and the
`accept` header value when present. -/
structure CFRequest where
  uri : String
  querystring : List (String × String)
  accept : Option String
deriving DecidableEq, Repr

/-- The error object returned by the CloudFront Function on bad input.
Note that it carries a plain-text `body` and no headers. -/
structure CFError where
  statusCode : Nat
  statusDescription : String
  body : String
deriving DecidableEq, Repr

/-- Result of the url-rewrite handler: a (possibly rewritten) request or an
error object. -/
inductive CFResult where
  | request (r : CFRequest)
  | error (e : CFError)
deriving DecidableEq, Repr

/-- The `normalizedOperations` object accumulated by the handler's loop:
at most one surviving value for each of the four recognized parameters. -/
structure NormalizedOps where
  format : Option String
  width : Option String
  height : Option String
  quality : Option String
deriving DecidableEq, Repr

/-- The empty `normalizedOperations` object. -/
def emptyOps : NormalizedOps := ⟨none, none, none, none⟩

/-- `SUPPORTED_FORMATS` of the url-rewrite function. -/
def SUPPORTED_FORMATS : List String :=
  ["auto", "jpeg", "webp", "avif", "png", "svg", "gif"]

/-- Resolution of `format=auto` from the `accept` header (lines 85-95):
start from `jpeg`; if the header is present and mentions `avif`, pick `avif`,
else if it mentions `webp`, pick `webp`. -/
def resolveAuto (accept : Option String) : String :=
  match accept with
  | none => "jpeg"
  | some a => if jsIncludes a "avif" then "avif"
              else if jsIncludes a "webp" then "webp"
              else "jpeg"

/-- One iteration of the parameter loop (lines 66-122): lower-case the key,
and validate/normalize `format`, `width`, `height` or `quality`; any other
key leaves the accumulated operations unchanged. -/
def processOp (accept : Option String) (ops : NormalizedOps) (k v : String) : NormalizedOps :=
  let opLower := asciiLower k
  if opLower = "format" then
    if v ≠ "" then
      let formatValue := asciiLower v
      if SUPPORTED_FORMATS.contains formatValue then
        { ops with format := some (if formatValue = "auto" then resolveAuto accept else formatValue) }
      else ops
    else ops
  else if opLower = "width" then
    if v ≠ "" then
      match jsParseInt v with
      | some width =>
        if 0 < width ∧ width ≤ 4000 then { ops with width := some (intToStr width) } else ops
      | none => ops
    else ops
  else if opLower = "height" then
    if v ≠ "" then
      match jsParseInt v with
      | some height =>
        if 0 < height ∧ height ≤ 4000 then { ops with height := some (intToStr height) } else ops
      | none => ops
    else ops
  else if opLower = "quality" then
    if v ≠ "" then
      match jsParseInt v with
      | some quality =>
        if 0 < quality then
          { ops with quality := some (intToStr (if quality > 100 then 100 else quality)) }
        else ops
      | none => ops
    else ops
  else ops

/-- The whole parameter loop: fold over the query-string entries in object
key order, skipping the entry whose key is exactly `url`. -/
def effOps (accept : Option String) (qs : List (String × String)) : NormalizedOps :=
  qs.foldl (fun ops e => if e.1 = "url" then ops else processOp accept ops e.1 e.2) emptyOps

/-- JS `Array.prototype.join(sep)`. -/
def joinSep (sep : String) : List String → String
  | [] => ""
  | [x] => x
  | x :: y :: xs => x ++ sep ++ joinSep sep (y :: xs)

/-- Serialization of the surviving operations (lines 124-133): the literal
`original` when the object is empty, else `key=value` pairs joined by commas
in the fixed order `format, quality, width, height`. -/
def serializeOps (ops : NormalizedOps) : String :=
  let arr : List String :=
    (match ops.format with | some f => ["format=" ++ f] | none => []) ++
    (match ops.quality with | some q => ["quality=" ++ q] | none => []) ++
    (match ops.width with | some w => ["width=" ++ w] | none => []) ++
    (match ops.height with | some h => ["height=" ++ h] | none => [])
  if arr = [] then "original" else joinSep "," arr

/-- The canonical path assembled at line 135:
`'/proxy/' + encodedUrl + '/' + operationsSuffix`. -/
def canonicalUri (urlValue : String) (ops : NormalizedOps) : String :=
  "/proxy/" ++ encodeTokenStr urlValue ++ "/" ++ serializeOps ops

/-- The url-rewrite handler.  Requests already under `/proxy/` pass through
unchanged; a missing or empty `url` parameter or a `url` failing the
`^https?:\/\/.+` check yields a 400 error object; otherwise the request is
rewritten to the canonical path with an emptied query string. -/
def urlRewriteHandler (r : CFRequest) : CFResult :=
  if startsWithStr r.uri "/proxy/" then .request r
  else
    match List.lookup "url" r.querystring with
    | none => .error ⟨400, "Bad Request", "Missing required parameter: url"⟩
    | some imageUrl =>
      if imageUrl = "" then .error ⟨400, "Bad Request", "Missing required parameter: url"⟩
      else if matchesHttpRegexStr imageUrl = false then
        .error ⟨400, "Bad Request", "Invalid URL format"⟩
      else
        .request { r with uri := canonicalUri imageUrl (effOps r.accept r.querystring),
                          querystring := [] }

/-! ## Origin stage: the image-processing Lambda
(`src/functions/image-processing/index.mjs`). -/

/-- JS `String.prototype.split(sep)` for a one-character separator. -/
def splitOnChar (sep : Char) : List Char → List (List Char)
  | [] => [[]]
  | c :: rest =>
    if c = sep then [] :: splitOnChar sep rest
    else
      match splitOnChar sep rest with
      | h :: t => (c :: h) :: t
      | [] => [[c]]

/-- The scheme and host of a parsed URL, as produced by `new URL(...)`. -/
structure ParsedUrl where
  protocol : String
  hostname : String
deriving DecidableEq, Repr

/-- Bridge from UTF-16 code units back to a Lean `String` (exact on
non-surrogate BMP units, which covers every URL exercised here). -/
def codeUnitsToString (l : List Nat) : String :=
  String.mk (l.map (fun n => Char.ofNat n))

/-- Split a code-unit string at the first `://`, returning the scheme text
and the remainder. -/
def findSchemeSplit : List Char → Option (List Char × List Char)
  | ':' :: '/' :: '/' :: rest => some ([], rest)
  | c :: rest =>
    match findSchemeSplit rest with
    | some (sch, r) => some (c :: sch, r)
    | none => none
  | [] => none

/-- Shallow model of the runtime `new URL(url)` (Node's WHATWG URL class),
sufficient for scheme and host extraction on `http(s)` URLs: the scheme is
the text before the first `://` (lower-cased, with `:` appended, as in
`url.protocol`), the host is the authority after any userinfo and before any
port, path, query or fragment (lower-cased).  `none` models the constructor
throwing `Invalid URL`. -/
def parseJsUrl (s : String) : Option ParsedUrl :=
  match findSchemeSplit s.data with
  | none => none
  | some (sch, rest) =>
    let authority := rest.takeWhile (fun c => ¬(c = '/' ∨ c = '?' ∨ c = '#'))
    let hostPort := (splitOnChar '@' authority).getLastD []
    let host := hostPort.takeWhile (fun c => c ≠ ':')
    if sch = [] ∨ host = [] then none
    else some ⟨asciiLower (String.mk sch) ++ ":", asciiLower (String.mk host)⟩

/-- The outcome of `dns.resolve4`/`dns.resolve6` for the request's hostname:
`none` models a resolution error (turned into `[]` by the `.catch(() => [])`
in `validateUrl`), `some ips` a successful answer. -/
structure DnsResult where
  v4 : Option (List String)
  v6 : Option (List String)
deriving DecidableEq, Repr

/-- The regex `^172\.(1[6-9]|2[0-9]|3[0-1])\.` of `BLOCKED_IP_RANGES`. -/
def matches172 : List Char → Bool
  | '1' :: '7' :: '2' :: '.' :: a :: b :: '.' :: _ =>
    (a = '1' && '6' ≤ b && b ≤ '9') ||
    (a = '2' && '0' ≤ b && b ≤ '9') ||
    (a = '3' && (b = '0' || b = '1'))
  | _ => false

/-- `BLOCKED_IP_RANGES.some(range => range.test(ip))`: the fourteen regexes
of lines 20-35, in order. -/
def isBlockedIp (ip : String) : Bool :=
  startsWithStr ip "10." ||
  matches172 ip.data ||
  startsWithStr ip "192.168." ||
  startsWithStr ip "127." ||
  startsWithStr ip "169.254." ||
  startsWithStr ip "0." ||
  startsWithStr ip "224." ||
  startsWithStr ip "240." ||
  ip = "::1" ||
  startsWithStr ip "::" ||
  startsWithStr (asciiLower ip) "fe80:" ||
  startsWithStr (asciiLower ip) "fc00:" ||
  startsWithStr (asciiLower ip) "fd00:" ||
  startsWithStr (asciiLower ip) "ff00:"

/-- `validateUrl` (lines 49-77): reject non-HTTP(S) schemes; resolve the
hostname (a failed resolution contributes an empty list, not a rejection);
reject when any resolved address matches a blocked range. -/
def validateUrl (u : ParsedUrl) (dns : DnsResult) : Except String ParsedUrl :=
  if (u.protocol = "http:" || u.protocol = "https:") = false then
    .error "Only HTTP/HTTPS protocols allowed"
  else
    let allIps := dns.v4.getD [] ++ dns.v6.getD []
    if allIps.any isBlockedIp then .error "Access to private IP addresses is blocked"
    else .ok u

/-- A JS number that is either an integer or `NaN` (`none`). -/
abbrev JsNum := Option Int

/-- `operationsPrefix.split(',').map(op => op.split('='))` followed by
`Object.fromEntries`: each comma-segment yields the part before the first
`=` as key and the part after it (possibly absent, i.e. `undefined`) as
value. -/
def opEntries (operationsPrefix : String) : List (List Char × Option (List Char)) :=
  (splitOnChar ',' operationsPrefix.data).map (fun op =>
    let parts := splitOnChar '=' op
    (parts.getD 0 [], parts.get? 1))

/-- Property lookup on the `operationsJSON` object built by
`Object.fromEntries` (later duplicate keys overwrite earlier ones, hence the
reversed first-match lookup). -/
def opLookup (operationsPrefix : String) (k : String) : Option (Option (List Char)) :=
  List.lookup k.data (opEntries operationsPrefix).reverse

/-- JS truthiness of an object property holding a string or `undefined`. -/
def opTruthy : Option (Option (List Char)) → Bool
  | some (some v) => v ≠ []
  | _ => false

/-- The string content of a (truthy) property. -/
def opValue : Option (Option (List Char)) → List Char
  | some (some v) => v
  | _ => []

/-- JS truthiness of a possibly-unset, possibly-`NaN` number. -/
def numTruthy : Option JsNum → Bool
  | some (some n) => n ≠ 0
  | _ => false

/-- The Sharp invocation plan derived from the operations path segment
(lines 206-248): which resize options are set, whether `resize` is invoked,
which format (and quality) is passed to `toFormat`, and the response content
type. -/
structure TransformPlan where
  resizeWidth : Option JsNum
  resizeHeight : Option JsNum
  resizeCalled : Bool
  formatArg : Option String
  qualityArg : Option JsNum
  contentTypeOut : String
deriving DecidableEq, Repr

/-- Pure derivation of the transform plan from the operations segment and the
fetched content type.  `width`/`height`/`quality` values are applied with
`parseInt` and no range check. -/
def transformPlan (operationsPrefix contentTypeIn : String) : TransformPlan :=
  let wRaw := opLookup operationsPrefix "width"
  let hRaw := opLookup operationsPrefix "height"
  let fRaw := opLookup operationsPrefix "format"
  let qRaw := opLookup operationsPrefix "quality"
  let wOpt : Option JsNum := if opTruthy wRaw then some (jsParseIntL (opValue wRaw)) else none
  let hOpt : Option JsNum := if opTruthy hRaw then some (jsParseIntL (opValue hRaw)) else none
  let resizeCalled := numTruthy wOpt || numTruthy hOpt
  if opTruthy fRaw then
    let f := String.mk (opValue fRaw)
    let ctLossy : String × Bool :=
      if f = "jpeg" then ("image/jpeg", true)
      else if f = "gif" then ("image/gif", false)
      else if f = "webp" then ("image/webp", true)
      else if f = "png" then ("image/png", false)
      else if f = "avif" then ("image/avif", true)
      else ("image/jpeg", true)
    let quality : Option JsNum :=
      if opTruthy qRaw && ctLossy.2 then some (jsParseIntL (opValue qRaw)) else none
    ⟨wOpt, hOpt, resizeCalled, some f, quality, ctLossy.1⟩
  else
    ⟨wOpt, hOpt, resizeCalled, none, none,
     if contentTypeIn = "image/svg+xml" then "image/png" else contentTypeIn⟩

/-- A Lambda function URL response. -/
structure OriginResponse where
  statusCode : Nat
  body : Option String
  isBase64Encoded : Bool
  headers : List (String × String)
deriving DecidableEq, Repr

/-- Lower-case hexadecimal digit character. -/
def hexChar (n : Nat) : Char :=
  if n < 10 then Char.ofNat (48 + n) else Char.ofNat (87 + n)

/-- JSON string escaping for `JSON.stringify` (quote, backslash and control
characters; the handler's messages contain none of the latter). -/
def jsonEscapeChar (c : Char) : List Char :=
  if c = '"' then ['\\', '"']
  else if c = '\\' then ['\\', '\\']
  else if c.toNat < 32 then
    ['\\', 'u', '0', '0', hexChar (c.toNat / 16), hexChar (c.toNat % 16)]
  else [c]

/-- `JSON.stringify({ error: msg })`. -/
def jsonErrorBody (msg : String) : String :=
  "\x7b\"error\":\"" ++ String.mk (msg.data.map jsonEscapeChar).flatten ++ "\"\x7d"

/-- `sendError` (lines 319-329): JSON error body with `Content-Type:
application/json` and `Cache-Control: no-store`. -/
def sendError (statusCode : Nat) (msg : String) : OriginResponse :=
  ⟨statusCode, some (jsonErrorBody msg), false,
   [("Content-Type", "application/json"), ("Cache-Control", "no-store")]⟩

/-- What one Lambda invocation does at its end: what was written to S3 (key
and bytes), and the HTTP response. -/
structure OriginOutcome where
  persisted : Option (String × List Nat)
  response : OriginResponse
deriving DecidableEq, Repr

/-- Inputs of the persist-and-respond tail of the handler (lines 256-316).
`bucketEnabled` is the truthiness of `S3_TRANSFORMED_IMAGE_BUCKET`;
`putSucceeds` the behaviour of the external store on this request. -/
structure CacheWriteCtx where
  bucketEnabled : Bool
  putSucceeds : Bool
  maxImageSize : Nat
  encodedUrl : String
  operationsPrefix : String
  bytes : List Nat
  contentType : String
  cacheTTL : String
  timingLog : String
  uploadDur : Nat
deriving DecidableEq, Repr

/-- The 200 inline response (lines 307-316): base64 body with content type,
configured cache directive and timing header. -/
def inline200 (ctx : CacheWriteCtx) (timing : String) : OriginResponse :=
  ⟨200, some (String.mk (base64Encode ctx.bytes)), true,
   [("Content-Type", ctx.contentType), ("Cache-Control", ctx.cacheTTL),
    ("Server-Timing", timing)]⟩

/-- The persist-and-respond tail of the handler (lines 256-316): persist when
the bucket is configured and the put succeeds; redirect (307, `no-store`)
when the artifact exceeds `MAX_IMAGE_SIZE` and was persisted; 413 when it is
oversized and nothing could be persisted; otherwise return it inline. -/
def cacheWriterStep (ctx : CacheWriteCtx) : OriginOutcome :=
  let imageTooBig := ctx.bytes.length > ctx.maxImageSize
  if ctx.bucketEnabled then
    if ctx.putSucceeds then
      let cacheKey := ctx.encodedUrl ++ "/" ++ ctx.operationsPrefix
      let timing := ctx.timingLog ++ ",img-upload;dur=" ++ toString ctx.uploadDur
      if imageTooBig then
        ⟨some (cacheKey, ctx.bytes),
         ⟨307, none, false,
          [("Location", "/proxy/" ++ ctx.encodedUrl ++ "/" ++ ctx.operationsPrefix),
           ("Cache-Control", "no-store"),
           ("Server-Timing", timing)]⟩⟩
      else ⟨some (cacheKey, ctx.bytes), inline200 ctx timing⟩
    else
      if imageTooBig then ⟨none, sendError 413 "Requested transformed image is too big"⟩
      else ⟨none, inline200 ctx ctx.timingLog⟩
  else
    if imageTooBig then ⟨none, sendError 413 "Requested transformed image is too big"⟩
    else ⟨none, inline200 ctx ctx.timingLog⟩

/-- The request-dependent part of the Lambda event. -/
structure OriginEvent where
  method : String
  path : String
deriving DecidableEq, Repr

/-- The external effects of one invocation: the DNS answers, the outcome of
`fetchExternalImage` (`.error` carries the thrown message), Sharp's outcome,
and the store/configuration state. -/
structure World where
  dns : DnsResult
  fetchResult : Except String (List Nat × String)
  transformOk : Bool
  transformedBytes : List Nat
  bucketEnabled : Bool
  putSucceeds : Bool
  maxImageSize : Nat
  cacheTTL : String
  downloadDur : Nat
  transformDur : Nat
  uploadDur : Nat

/-- The image-processing `handler` (lines 133-317): method check, path parse,
URL decode, SSRF validation, fetch-error mapping, transform, then the
persist-and-respond tail. -/
def originHandler (ev : OriginEvent) (w : World) : OriginOutcome :=
  if ev.method ≠ "GET" then ⟨none, sendError 400 "Only GET method is supported"⟩
  else
    let pathParts := (splitOnChar '/' ev.path.data).filter (fun p => p ≠ [])
    if pathParts.length < 2 ∨ pathParts.getD 0 [] ≠ "proxy".data then
      ⟨none, sendError 400 "Invalid request path format"⟩
    else
      let encodedUrl := pathParts.getD 1 []
      let operationsPrefix : String :=
        match pathParts.get? 2 with
        | some s => if s = [] then "original" else String.mk s
        | none => "original"
      let imageUrl := decodeToken encodedUrl
      if matchesHttpRegex imageUrl = false then
        ⟨none, sendError 400 "Failed to decode URL"⟩
      else
        match parseJsUrl (codeUnitsToString imageUrl) with
        | none => ⟨none, sendError 403 "URL validation failed: Invalid URL"⟩
        | some parsedUrl =>
          match validateUrl parsedUrl w.dns with
          | .error m => ⟨none, sendError 403 ("URL validation failed: " ++ m)⟩
          | .ok _ =>
            match w.fetchResult with
            | .error m =>
              if jsIncludes m "timeout" then
                ⟨none, sendError 504 "Request timeout while fetching image"⟩
              else if jsIncludes m "too large" then
                ⟨none, sendError 413 "Image file too large"⟩
              else if jsIncludes m "content type" then
                ⟨none, sendError 415 "Unsupported media type"⟩
              else ⟨none, sendError 502 ("Failed to fetch external image: " ++ m)⟩
            | .ok fetched =>
              let plan := transformPlan operationsPrefix fetched.2
              if w.transformOk = false then ⟨none, sendError 500 "Error transforming image"⟩
              else
                cacheWriterStep
                  { bucketEnabled := w.bucketEnabled
                    putSucceeds := w.putSucceeds
                    maxImageSize := w.maxImageSize
                    encodedUrl := String.mk encodedUrl
                    operationsPrefix := operationsPrefix
                    bytes := w.transformedBytes
                    contentType := plan.contentTypeOut
                    cacheTTL := w.cacheTTL
                    timingLog := "img-download;dur=" ++ toString w.downloadDur ++
                      ",img-transform;dur=" ++ toString w.transformDur
                    uploadDur := w.uploadDur }

/-! ## Spec-side definitions (used to state the claims, not taken from the
source). -/

/-- Spec-side statement of the width/height rule: kept exactly when the value
parses as an integer `n` with `0 < n ≤ 4000`, stored as its decimal string. -/
def specWidthHeightRule (v : String) : Option String :=
  match jsParseInt v with
  | some n => if 0 < n ∧ n ≤ 4000 then some (intToStr n) else none
  | none => none

/-- Spec-side statement of the quality rule: kept exactly when the value
parses as an integer `n` with `0 < n`, clamped down to 100. -/
def specQualityRule (v : String) : Option String :=
  match jsParseInt v with
  | some n => if 0 < n then some (intToStr (if n > 100 then 100 else n)) else none
  | none => none

/-- Numeric value of a decimal octet text. -/
def octetVal (l : List Char) : Option Nat :=
  if l ≠ [] ∧ l.all (fun c => decide ('0' ≤ c ∧ c ≤ '9')) then
    some (l.foldl (fun acc c => acc * 10 + (c.toNat - 48)) 0)
  else none

/-- Spec-side membership of a dotted-quad IPv4 text in `224.0.0.0/4`
(first octet 224-239), one of the ranges the spec's Origin Guard contract
lists as blocked. -/
def inCidr224slash4 (ip : String) : Bool :=
  match splitOnChar '.' ip.data with
  | [a, b, c, d] =>
    match octetVal a, octetVal b, octetVal c, octetVal d with
    | some na, some nb, some nc, some nd =>
      decide (224 ≤ na ∧ na ≤ 239 ∧ nb ≤ 255 ∧ nc ≤ 255 ∧ nd ≤ 255)
    | _, _, _, _ => false
  | _ => false

/-! ## Helper lemmas: bit arithmetic of the base64 codec -/

theorem lor_shiftLeft_eq_add (a b k : Nat) (hb : b < 2 ^ k) :
    a <<< k ||| b = a * 2 ^ k + b := by
  apply Nat.eq_of_testBit_eq
  intro i
  rw [Nat.testBit_lor, Nat.testBit_shiftLeft, mul_comm, Nat.testBit_mul_pow_two_add a hb i]
  by_cases h : i < k
  · have h1 : ¬(i ≥ k) := by omega
    simp [h, h1]
  · have h2 : b.testBit i = false :=
      Nat.testBit_eq_false_of_lt
        (lt_of_lt_of_le hb (Nat.pow_le_pow_right (by norm_num) (by omega)))
    simp [h, h2, (by omega : i ≥ k)]

theorem bitmap_eq (a b c : Nat) (hb : b < 256) (hc : c < 256) :
    ((a <<< 16) ||| (b <<< 8)) ||| c = a * 65536 + b * 256 + c := by
  have p16 : (2 : Nat) ^ 16 = 65536 := by norm_num
  have p8 : (2 : Nat) ^ 8 = 256 := by norm_num
  have h8 : b <<< 8 = b * 256 := by rw [Nat.shiftLeft_eq, p8]
  have h1 : (a <<< 16) ||| (b <<< 8) = a * 65536 + b * 256 := by
    rw [h8, lor_shiftLeft_eq_add a (b * 256) 16 (by omega), p16]
  have h2 : (a * 256 + b) <<< 8 = a * 65536 + b * 256 := by
    rw [Nat.shiftLeft_eq, p8]; ring
  rw [h1]
  conv_lhs => rw [← h2]
  rw [lor_shiftLeft_eq_add (a * 256 + b) c 8 (by omega), p8]
  ring

theorem and63_eq_mod (m : Nat) : m &&& 63 = m % 64 := by
  apply Nat.eq_of_testBit_eq
  intro i
  rw [Nat.testBit_land]
  have h63 : (63 : Nat) = 2 ^ 6 - 1 := by norm_num
  have h64 : (64 : Nat) = 2 ^ 6 := by norm_num
  rw [h63, h64, Nat.testBit_two_pow_sub_one, Nat.testBit_mod_two_pow, Bool.and_comm]

theorem shiftRight_and63 (m n : Nat) : (m >>> n) &&& 63 = m / 2 ^ n % 64 := by
  rw [Nat.shiftRight_eq_div_pow, and63_eq_mod]

/-! ## Helper lemmas: the `=`-stripping and the alphabet round trip -/

theorem sext_roundtrip : ∀ s, s < 64 → sextOf (decReplace (encReplace (b64charAt s))) = some s := by
  decide

theorem encReplace_b64_ne_eq : ∀ s, s < 64 → encReplace (b64charAt s) ≠ '=' := by
  decide

theorem dropWhile_append_of_ne_nil {α : Type} {p : α → Bool} {xs ys : List α}
    (h : xs.dropWhile p ≠ []) :
    (xs ++ ys).dropWhile p = xs.dropWhile p ++ ys := by
  rw [List.dropWhile_append, if_neg (by simpa [List.isEmpty_iff] using h)]

theorem dropTrailingEq_append (l1 l2 : List Char) (h : dropTrailingEq l2 ≠ []) :
    dropTrailingEq (l1 ++ l2) = l1 ++ dropTrailingEq l2 := by
  have h2 : l2.reverse.dropWhile (fun c => c = '=') ≠ [] := by
    intro hc
    apply h
    unfold dropTrailingEq
    rw [hc, List.reverse_nil]
  unfold dropTrailingEq
  rw [List.reverse_append, dropWhile_append_of_ne_nil h2, List.reverse_append,
    List.reverse_reverse]

theorem dropTrailingEq_ne_nil {x : Char} {xs : List Char} (hx : x ≠ '=') :
    dropTrailingEq (x :: xs) ≠ [] := by
  intro h
  unfold dropTrailingEq at h
  rw [List.reverse_eq_nil_iff] at h
  have hall := List.dropWhile_eq_nil_iff.mp h
  have hmem : x ∈ (x :: xs).reverse := by simp
  have := hall x hmem
  simp at this
  exact hx this

theorem dropTrailingEq_no_eq (l : List Char) (h : ∀ x ∈ l, x ≠ '=') :
    dropTrailingEq l = l := by
  unfold dropTrailingEq
  have hd : l.reverse.dropWhile (fun c => c = '=') = l.reverse := by
    cases hr : l.reverse with
    | nil => rfl
    | cons y ys =>
      rw [List.dropWhile_cons]
      have hy : y ∈ l := by rw [← List.mem_reverse, hr]; simp
      simp [h y hy]
  rw [hd, List.reverse_reverse]

/-! ## Helper lemmas: the byte-level base64 round trip -/

/-- Induction principle following the three-byte chunking of the encoder. -/
theorem chunk3Induction {P : List Nat → Prop} (h0 : P []) (h1 : ∀ a, P [a])
    (h2 : ∀ a b, P [a, b]) (h3 : ∀ a b c rest, P rest → P (a :: b :: c :: rest)) :
    ∀ l, P l
  | [] => h0
  | [a] => h1 a
  | [a, b] => h2 a b
  | a :: b :: c :: rest => h3 a b c rest (chunk3Induction h0 h1 h2 h3 rest)

/-- Bound for the sextets produced by the encoder. -/
theorem sextet_lt (m n : Nat) : (m >>> n) &&& 63 < 64 := by
  rw [shiftRight_and63]
  exact Nat.mod_lt _ (by norm_num)

/-- Bound for the last sextet of a full chunk. -/
theorem and63_lt (m : Nat) : m &&& 63 < 64 := by
  rw [and63_eq_mod]
  exact Nat.mod_lt _ (by norm_num)

theorem dropTrailing_enc2 (s0 s1 : Nat) (h1 : s1 < 64) :
    dropTrailingEq [encReplace (b64charAt s0), encReplace (b64charAt s1), '=', '='] =
      [encReplace (b64charAt s0), encReplace (b64charAt s1)] := by
  unfold dropTrailingEq
  simp [List.dropWhile_cons, encReplace_b64_ne_eq _ h1]

theorem dropTrailing_enc3 (s0 s1 s2 : Nat) (h2 : s2 < 64) :
    dropTrailingEq [encReplace (b64charAt s0), encReplace (b64charAt s1),
        encReplace (b64charAt s2), '='] =
      [encReplace (b64charAt s0), encReplace (b64charAt s1), encReplace (b64charAt s2)] := by
  unfold dropTrailingEq
  simp [List.dropWhile_cons, encReplace_b64_ne_eq _ h2]

theorem b64_roundtrip_core :
    ∀ l : List Nat, (∀ x ∈ l, x < 256) →
      b64groups (List.filterMap sextOf
        ((dropTrailingEq ((base64Encode l).map encReplace)).map decReplace)) = l := by
  intro l
  induction l using chunk3Induction with
  | h0 => intro _; rfl
  | h1 a =>
    intro hlt
    have ha : a < 256 := hlt a (by simp)
    simp only [base64Encode, List.map_cons, List.map_nil]
    rw [show encReplace '=' = '=' from rfl]
    rw [dropTrailing_enc2 _ _ (sextet_lt _ _)]
    simp only [List.map_cons, List.map_nil, List.filterMap_cons,
      sext_roundtrip _ (sextet_lt _ _), List.filterMap_nil]
    simp only [b64groups]
    rw [shiftRight_and63, shiftRight_and63,
      bitmap_eq a 0 0 (by norm_num) (by norm_num)]
    have p18 : (2 : Nat) ^ 18 = 262144 := by norm_num
    have p12 : (2 : Nat) ^ 12 = 4096 := by norm_num
    rw [p18, p12]
    congr 1
    omega
  | h2 a b =>
    intro hlt
    have ha : a < 256 := hlt a (by simp)
    have hb : b < 256 := hlt b (by simp)
    simp only [base64Encode, List.map_cons, List.map_nil]
    rw [show encReplace '=' = '=' from rfl]
    rw [dropTrailing_enc3 _ _ _ (sextet_lt _ _)]
    simp only [List.map_cons, List.map_nil, List.filterMap_cons,
      sext_roundtrip _ (sextet_lt _ _), List.filterMap_nil]
    simp only [b64groups]
    rw [shiftRight_and63, shiftRight_and63, shiftRight_and63, bitmap_eq a b 0 hb (by norm_num)]
    have p18 : (2 : Nat) ^ 18 = 262144 := by norm_num
    have p12 : (2 : Nat) ^ 12 = 4096 := by norm_num
    have p6 : (2 : Nat) ^ 6 = 64 := by norm_num
    rw [p18, p12, p6]
    congr 1
    · omega
    congr 1
    omega
  | h3 a b c rest ih =>
    intro hlt
    have ha : a < 256 := hlt a (by simp)
    have hb : b < 256 := hlt b (by simp)
    have hc : c < 256 := hlt c (by simp)
    have hrest : ∀ x ∈ rest, x < 256 := fun x hx => hlt x (by simp [hx])
    simp only [base64Encode, List.map_cons]
    by_cases hr : rest = []
    · subst hr
      rw [show List.map encReplace (base64Encode []) = ([] : List Char) from rfl]
      rw [dropTrailingEq_no_eq _ (by
        intro x hx
        simp only [List.mem_cons, List.not_mem_nil, or_false] at hx
        rcases hx with h | h | h | h <;> subst h
        · exact encReplace_b64_ne_eq _ (sextet_lt _ _)
        · exact encReplace_b64_ne_eq _ (sextet_lt _ _)
        · exact encReplace_b64_ne_eq _ (sextet_lt _ _)
        · exact encReplace_b64_ne_eq _ (and63_lt _))]
      simp only [List.map_cons, List.map_nil, List.filterMap_cons,
        sext_roundtrip _ (sextet_lt _ _), sext_roundtrip _ (and63_lt _), List.filterMap_nil]
      simp only [b64groups]
      rw [shiftRight_and63, shiftRight_and63, shiftRight_and63, and63_eq_mod,
        bitmap_eq a b c hb hc]
      have p18 : (2 : Nat) ^ 18 = 262144 := by norm_num
      have p12 : (2 : Nat) ^ 12 = 4096 := by norm_num
      have p6 : (2 : Nat) ^ 6 = 64 := by norm_num
      rw [p18, p12, p6]
      congr 1
      · omega
      congr 1
      · omega
      congr 1
      omega
    · have hne : dropTrailingEq ((base64Encode rest).map encReplace) ≠ [] := by
        match rest, hr with
        | x :: t, _ =>
          match t with
          | [] =>
            simp only [base64Encode, List.map_cons]
            exact dropTrailingEq_ne_nil (encReplace_b64_ne_eq _ (sextet_lt _ _))
          | [y] =>
            simp only [base64Encode, List.map_cons]
            exact dropTrailingEq_ne_nil (encReplace_b64_ne_eq _ (sextet_lt _ _))
          | y :: z :: t2 =>
            simp only [base64Encode, List.map_cons]
            exact dropTrailingEq_ne_nil (encReplace_b64_ne_eq _ (sextet_lt _ _))
      rw [show ∀ w0 w1 w2 w3 (ws : List Char), w0 :: w1 :: w2 :: w3 :: ws
            = [w0, w1, w2, w3] ++ ws from fun _ _ _ _ _ => rfl]
      rw [dropTrailingEq_append _ _ hne, List.map_append, List.filterMap_append]
      simp only [List.map_cons, List.map_nil, List.filterMap_cons,
        sext_roundtrip _ (sextet_lt _ _), sext_roundtrip _ (and63_lt _), List.filterMap_nil]
      rw [show ∀ s0 s1 s2 s3 (ss : List Nat), ([s0, s1, s2, s3] : List Nat) ++ ss
            = s0 :: s1 :: s2 :: s3 :: ss from fun _ _ _ _ _ => rfl]
      simp only [b64groups]
      rw [ih hrest]
      rw [shiftRight_and63, shiftRight_and63, shiftRight_and63, and63_eq_mod,
        bitmap_eq a b c hb hc]
      have p18 : (2 : Nat) ^ 18 = 262144 := by norm_num
      have p12 : (2 : Nat) ^ 12 = 4096 := by norm_num
      have p6 : (2 : Nat) ^ 6 = 64 := by norm_num
      rw [p18, p12, p6]
      congr 1
      · omega
      congr 1
      · omega
      congr 1
      omega

/-! ## Helper lemmas: UTF-8 on ASCII -/

theorem utf8DecodeAux_ascii :
    ∀ fuel (l : List Nat), l.length ≤ fuel → (∀ x ∈ l, x < 128) →
      utf8DecodeAux fuel l = l := by
  intro fuel
  induction fuel with
  | zero =>
    intro l hl _
    match l, hl with
    | [], _ => rfl
  | succ n ih =>
    intro l hl hx
    match l with
    | [] => rfl
    | b :: rest =>
      have hb : b < 128 := hx b (List.mem_cons_self _ _)
      have hl2 : rest.length ≤ n := by
        rw [List.length_cons] at hl; omega
      rw [utf8DecodeAux]
      unfold utf8Step
      rw [if_pos hb, ih rest hl2 (fun x hm => hx x (List.mem_cons_of_mem _ hm))]

theorem utf8Decode_ascii (l : List Nat) (h : ∀ x ∈ l, x < 128) : utf8Decode l = l :=
  utf8DecodeAux_ascii l.length l le_rfl h

/-- Byte-level composition: the handler's decoding of the rewriter's token
recovers the original code units whenever they are ASCII. -/
theorem decode_encode_ascii (u : List Nat) (h : ∀ x ∈ u, x < 128) :
    decodeToken (encodeToken u) = u := by
  unfold decodeToken encodeToken b64decode
  rw [b64_roundtrip_core u (fun x hx => lt_trans (h x hx) (by norm_num))]
  exact utf8Decode_ascii u h

/-! ## Helper lemmas: the url-rewrite handler -/

theorem startsWithStr_canonicalUri (v : String) (ops : NormalizedOps) :
    startsWithStr (canonicalUri v ops) "/proxy/" = true := by
  unfold canonicalUri startsWithStr
  simp only [String.data_append, List.append_assoc]
  exact List.isPrefixOf_iff_prefix.mpr (List.prefix_append _ _)

theorem urlRewriteHandler_pass (r : CFRequest) (h : startsWithStr r.uri "/proxy/" = true) :
    urlRewriteHandler r = .request r := by
  unfold urlRewriteHandler
  rw [if_pos h]

theorem processOp_width_eq (accept : Option String) (ops : NormalizedOps) (v : String) :
    processOp accept ops "width" v =
      (if v = "" then ops else
        match jsParseInt v with
        | some n => if 0 < n ∧ n ≤ 4000 then { ops with width := some (intToStr n) } else ops
        | none => ops) := by
  simp only [processOp]
  rw [show asciiLower "width" = "width" from by decide]
  rw [if_neg (by decide : ¬("width" : String) = "format"), if_pos rfl]
  by_cases hv : v = ""
  · simp [hv]
  · simp [hv]

theorem processOp_height_eq (accept : Option String) (ops : NormalizedOps) (v : String) :
    processOp accept ops "height" v =
      (if v = "" then ops else
        match jsParseInt v with
        | some n => if 0 < n ∧ n ≤ 4000 then { ops with height := some (intToStr n) } else ops
        | none => ops) := by
  simp only [processOp]
  rw [show asciiLower "height" = "height" from by decide]
  rw [if_neg (by decide : ¬("height" : String) = "format"),
    if_neg (by decide : ¬("height" : String) = "width"), if_pos rfl]
  by_cases hv : v = ""
  · simp [hv]
  · simp [hv]

theorem processOp_quality_eq (accept : Option String) (ops : NormalizedOps) (v : String) :
    processOp accept ops "quality" v =
      (if v = "" then ops else
        match jsParseInt v with
        | some n =>
          if 0 < n then { ops with quality := some (intToStr (if n > 100 then 100 else n)) }
          else ops
        | none => ops) := by
  simp only [processOp]
  rw [show asciiLower "quality" = "quality" from by decide]
  rw [if_neg (by decide : ¬("quality" : String) = "format"),
    if_neg (by decide : ¬("quality" : String) = "width"),
    if_neg (by decide : ¬("quality" : String) = "height"), if_pos rfl]
  by_cases hv : v = ""
  · simp [hv]
  · simp [hv]

theorem processOp_width_width (accept : Option String) (ops : NormalizedOps) (v : String) :
    (processOp accept ops "width" v).width =
      (match jsParseInt v with
       | some n => if 0 < n ∧ n ≤ 4000 then some (intToStr n) else ops.width
       | none => ops.width) := by
  rw [processOp_width_eq]
  by_cases hv : v = ""
  · rw [if_pos hv, hv, show jsParseInt "" = none from by decide]
  · rw [if_neg hv]
    split
    · split <;> rfl
    · rfl

theorem processOp_width_keeps (accept : Option String) (ops : NormalizedOps) (v : String) :
    (processOp accept ops "width" v).format = ops.format ∧
    (processOp accept ops "width" v).height = ops.height ∧
    (processOp accept ops "width" v).quality = ops.quality := by
  rw [processOp_width_eq]
  split
  · exact ⟨rfl, rfl, rfl⟩
  · split
    · split <;> exact ⟨rfl, rfl, rfl⟩
    · exact ⟨rfl, rfl, rfl⟩

theorem processOp_height_height (accept : Option String) (ops : NormalizedOps) (v : String) :
    (processOp accept ops "height" v).height =
      (match jsParseInt v with
       | some n => if 0 < n ∧ n ≤ 4000 then some (intToStr n) else ops.height
       | none => ops.height) := by
  rw [processOp_height_eq]
  by_cases hv : v = ""
  · rw [if_pos hv, hv, show jsParseInt "" = none from by decide]
  · rw [if_neg hv]
    split
    · split <;> rfl
    · rfl

theorem processOp_height_keeps (accept : Option String) (ops : NormalizedOps) (v : String) :
    (processOp accept ops "height" v).format = ops.format ∧
    (processOp accept ops "height" v).width = ops.width ∧
    (processOp accept ops "height" v).quality = ops.quality := by
  rw [processOp_height_eq]
  split
  · exact ⟨rfl, rfl, rfl⟩
  · split
    · split <;> exact ⟨rfl, rfl, rfl⟩
    · exact ⟨rfl, rfl, rfl⟩

theorem processOp_quality_quality (accept : Option String) (ops : NormalizedOps) (v : String) :
    (processOp accept ops "quality" v).quality =
      (match jsParseInt v with
       | some n => if 0 < n then some (intToStr (if n > 100 then 100 else n)) else ops.quality
       | none => ops.quality) := by
  rw [processOp_quality_eq]
  by_cases hv : v = ""
  · rw [if_pos hv, hv, show jsParseInt "" = none from by decide]
  · rw [if_neg hv]
    split
    · split <;> rfl
    · rfl

theorem processOp_quality_keeps (accept : Option String) (ops : NormalizedOps) (v : String) :
    (processOp accept ops "quality" v).format = ops.format ∧
    (processOp accept ops "quality" v).width = ops.width ∧
    (processOp accept ops "quality" v).height = ops.height := by
  rw [processOp_quality_eq]
  split
  · exact ⟨rfl, rfl, rfl⟩
  · split
    · split <;> exact ⟨rfl, rfl, rfl⟩
    · exact ⟨rfl, rfl, rfl⟩

theorem urlRewriteHandler_rewrites (r : CFRequest) (v : String)
    (hp : startsWithStr r.uri "/proxy/" = false)
    (hu : List.lookup "url" r.querystring = some v)
    (hv : v ≠ "") (hm : matchesHttpRegexStr v = true) :
    urlRewriteHandler r =
      .request { r with
                 uri := canonicalUri v (effOps r.accept r.querystring),
                 querystring := [] } := by
  unfold urlRewriteHandler
  rw [if_neg (by simp [hp])]
  simp only [hu]
  rw [if_neg hv, if_neg (by simp [hm])]

/-! ## Claim theorems -/

/-- C9: a request whose path already begins with `/proxy/` is returned
unchanged by the Parameter Normalizer, and any request the normalizer
returns successfully is a fixed point, so normalizing an already-canonical
request is a no-op. -/
theorem c9_proxy_passthrough_idempotent (r r' : CFRequest) :
    (startsWithStr r.uri "/proxy/" = true → urlRewriteHandler r = .request r) ∧
    (urlRewriteHandler r = .request r' → urlRewriteHandler r' = .request r') := by
  constructor
  · exact urlRewriteHandler_pass r
  · intro h
    unfold urlRewriteHandler at h
    by_cases hp : startsWithStr r.uri "/proxy/" = true
    · rw [if_pos hp] at h
      injection h with h2
      subst h2
      exact urlRewriteHandler_pass r hp
    · rw [if_neg hp] at h
      split at h
      · exact absurd h (by simp)
      · split at h
        · exact absurd h (by simp)
        · split at h
          · exact absurd h (by simp)
          · injection h with h2
            subst h2
            exact urlRewriteHandler_pass _ (startsWithStr_canonicalUri _ _)

/-- C9 witness: a concrete already-canonical request passes through
unchanged. -/
theorem c9_witness :
    urlRewriteHandler ⟨"/proxy/aHR0cDovL3gx/original", [], none⟩
      = .request ⟨"/proxy/aHR0cDovL3gx/original", [], none⟩ :=
  (c9_proxy_passthrough_idempotent ⟨"/proxy/aHR0cDovL3gx/original", [], none⟩
    ⟨"/proxy/aHR0cDovL3gx/original", [], none⟩).1 (by decide)

/-- C7: a `format=auto` parameter (keys and values case-insensitively) is
resolved at normalization time from the `Accept` header: `avif` when the
header mentions `avif`, else `webp` when it mentions `webp`, else `jpeg`
(also `jpeg` when there is no `Accept` header); the surviving format is the
resolved concrete format, never the token `auto`. -/
theorem c7_format_auto_resolution (accept : Option String) (qs : List (String × String))
    (fk av : String) (hk : asciiLower fk = "format") (ha : asciiLower av = "auto") :
    (effOps accept (qs ++ [(fk, av)])).format = some (resolveAuto accept) ∧
    resolveAuto accept =
      (match accept with
       | none => "jpeg"
       | some a => if jsIncludes a "avif" then "avif"
                   else if jsIncludes a "webp" then "webp"
                   else "jpeg") ∧
    resolveAuto accept ≠ "auto" := by
  refine ⟨?_, rfl, ?_⟩
  · have hfk : fk ≠ "url" := by
      intro hh
      rw [hh] at hk
      exact absurd hk (by decide)
    have hav : av ≠ "" := by
      intro hh
      rw [hh] at ha
      exact absurd ha (by decide)
    unfold effOps
    rw [List.foldl_append]
    simp only [List.foldl_cons, List.foldl_nil]
    rw [if_neg hfk]
    simp only [processOp]
    rw [hk]
    rw [if_pos rfl, if_pos hav, ha,
      if_pos (by decide : SUPPORTED_FORMATS.contains "auto" = true), if_pos rfl]
  · unfold resolveAuto
    split
    · decide
    · split
      · decide
      · split <;> decide

/-- C7 witness: `format=AUTO` with `Accept: image/avif,image/webp` resolves
to `avif` in the surviving operations. -/
theorem c7_witness :
    (effOps (some "image/avif,image/webp")
        ([("url", "http://x")] ++ [("Format", "AUTO")])).format
      = some (resolveAuto (some "image/avif,image/webp")) :=
  (c7_format_auto_resolution (some "image/avif,image/webp") [("url", "http://x")]
    "Format" "AUTO" (by decide) (by decide)).1

/-- C1: two raw requests with the same `url` value and the same surviving
operation set are rewritten to byte-identical canonical paths, the path is
`/proxy/{token}/{operations}` with the operations comma-joined in the fixed
order `format, quality, width, height`, and an empty effective set yields the
literal suffix `original`. -/
theorem c1_canonical_key_deterministic (r1 r2 : CFRequest) (v f q wS hS : String)
    (hp1 : startsWithStr r1.uri "/proxy/" = false)
    (hp2 : startsWithStr r2.uri "/proxy/" = false)
    (hu1 : List.lookup "url" r1.querystring = some v)
    (hu2 : List.lookup "url" r2.querystring = some v)
    (hv : v ≠ "") (hm : matchesHttpRegexStr v = true)
    (hops : effOps r1.accept r1.querystring = effOps r2.accept r2.querystring) :
    urlRewriteHandler r1 =
      .request { r1 with
                 uri := canonicalUri v (effOps r1.accept r1.querystring),
                 querystring := [] } ∧
    urlRewriteHandler r2 =
      .request { r2 with
                 uri := canonicalUri v (effOps r2.accept r2.querystring),
                 querystring := [] } ∧
    canonicalUri v (effOps r1.accept r1.querystring)
      = canonicalUri v (effOps r2.accept r2.querystring) ∧
    canonicalUri v (effOps r1.accept r1.querystring)
      = "/proxy/" ++ encodeTokenStr v ++ "/" ++ serializeOps (effOps r1.accept r1.querystring) ∧
    (effOps r1.accept r1.querystring = emptyOps →
      canonicalUri v (effOps r1.accept r1.querystring)
        = "/proxy/" ++ encodeTokenStr v ++ "/" ++ "original") ∧
    serializeOps ⟨some f, some wS, some hS, some q⟩
      = joinSep "," ["format=" ++ f, "quality=" ++ q, "width=" ++ wS, "height=" ++ hS] := by
  refine ⟨urlRewriteHandler_rewrites r1 v hp1 hu1 hv hm,
    urlRewriteHandler_rewrites r2 v hp2 hu2 hv hm, by rw [hops], rfl, ?_, rfl⟩
  intro h
  rw [h]
  rfl

/-- C1 witness: the same url and surviving width/height in the two possible
parameter orders produce the same canonical path. -/
theorem c1_witness :
    canonicalUri "http://e.com/a.png"
        (effOps none [("url", "http://e.com/a.png"), ("width", "30"), ("height", "40")])
      = canonicalUri "http://e.com/a.png"
        (effOps none [("url", "http://e.com/a.png"), ("height", "40"), ("width", "30")]) :=
  (c1_canonical_key_deterministic
    ⟨"/", [("url", "http://e.com/a.png"), ("width", "30"), ("height", "40")], none⟩
    ⟨"/", [("url", "http://e.com/a.png"), ("height", "40"), ("width", "30")], none⟩
    "http://e.com/a.png" "f" "q" "w" "h"
    (by decide) (by decide) (by decide) (by decide) (by decide) (by decide)
    (by decide)).2.2.1

/-- C6: the Parameter Normalizer keeps `width`/`height` exactly when the
value parses as an integer in `(0, 4000]` and keeps `quality` exactly when it
parses as a positive integer, clamping values above 100 to 100; in
particular `width=4000` is kept, `width=4001` dropped, `quality=101` becomes
100, `quality=0` dropped; and a request whose parameters are all dropped is
still rewritten, never an error. -/
theorem c6_parameter_bounds (accept : Option String) (u wv hv qv : String)
    (hne : u ≠ "") (hreg : matchesHttpRegexStr u = true) :
    (effOps accept [("url", u), ("width", wv), ("height", hv), ("quality", qv)]).width
        = specWidthHeightRule wv ∧
    (effOps accept [("url", u), ("width", wv), ("height", hv), ("quality", qv)]).height
        = specWidthHeightRule hv ∧
    (effOps accept [("url", u), ("width", wv), ("height", hv), ("quality", qv)]).quality
        = specQualityRule qv ∧
    (effOps accept [("url", u), ("width", wv), ("height", hv), ("quality", qv)]).format
        = none ∧
    (effOps none [("width", "4000")]).width = some "4000" ∧
    (effOps none [("width", "4001")]).width = none ∧
    (effOps none [("quality", "101")]).quality = some "100" ∧
    (effOps none [("quality", "0")]).quality = none ∧
    ∃ r', urlRewriteHandler
        ⟨"/", [("url", u), ("width", wv), ("height", hv), ("quality", qv)], accept⟩
      = .request r' := by
  have e1 : effOps accept [("url", u), ("width", wv), ("height", hv), ("quality", qv)]
      = processOp accept (processOp accept (processOp accept emptyOps "width" wv)
          "height" hv) "quality" qv := by
    simp [effOps]
  refine ⟨?_, ?_, ?_, ?_, by decide, by decide, by decide, by decide, ?_⟩
  · rw [e1, (processOp_quality_keeps _ _ _).2.1, (processOp_height_keeps _ _ _).2.1,
      processOp_width_width]
    unfold specWidthHeightRule
    split
    · split <;> rfl
    · rfl
  · rw [e1, (processOp_quality_keeps _ _ _).2.2, processOp_height_height,
      (processOp_width_keeps _ _ _).2.1]
    unfold specWidthHeightRule
    split
    · split <;> rfl
    · rfl
  · rw [e1, processOp_quality_quality, (processOp_height_keeps _ _ _).2.2,
      (processOp_width_keeps _ _ _).2.2]
    unfold specQualityRule
    split
    · split <;> rfl
    · rfl
  · rw [e1, (processOp_quality_keeps _ _ _).1, (processOp_height_keeps _ _ _).1,
      (processOp_width_keeps _ _ _).1]
    rfl
  · exact ⟨_, urlRewriteHandler_rewrites
      ⟨"/", [("url", u), ("width", wv), ("height", hv), ("quality", qv)], accept⟩
      u rfl rfl hne hreg⟩

/-- C6 witness: at a concrete url all three parameters obey the rules and the
request is rewritten rather than erroring. -/
theorem c6_witness :
    (effOps none [("url", "http://e.com"), ("width", "500"), ("height", "abc"),
        ("quality", "250")]).width = specWidthHeightRule "500" ∧
    ∃ r', urlRewriteHandler ⟨"/", [("url", "http://e.com"), ("width", "500"),
        ("height", "abc"), ("quality", "250")], none⟩ = .request r' := by
  have h := c6_parameter_bounds none "http://e.com" "500" "abc" "250"
    (by decide) (by decide)
  exact ⟨h.1, h.2.2.2.2.2.2.2.2⟩

/-- C2 (amended): decoding the edge stage's token recovers the source URL
exactly for every URL matching the validation regex whose UTF-16 code units
are all ASCII; the token is the custom base64 with `+/` replaced by `-_` and
trailing `=` stripped, and decoding reverses the substitution, base64-decodes
and reads the bytes as UTF-8. -/
theorem c2_roundtrip_ascii (u : List Nat) (hm : matchesHttpRegex u = true)
    (ha : u.all (fun x => decide (x < 128)) = true) :
    decodeToken (encodeToken u) = u :=
  decode_encode_ascii u (by simpa using ha)

/-- C2 witness: the round trip on the code units of a concrete ASCII URL. -/
theorem c2_roundtrip_witness :
    decodeToken (encodeToken (jsCodeUnits "https://example.com/a.jpg"))
      = jsCodeUnits "https://example.com/a.jpg" :=
  c2_roundtrip_ascii (jsCodeUnits "https://example.com/a.jpg") (by decide) (by decide)

/-- C2 counterexample: the URL `https://é` matches `^https?:\/\/.+`, but the
encoder truncates the code unit 0xE9 to one byte, which the handler's UTF-8
read maps to U+FFFD, so the round trip is not the identity on it. -/
theorem c2_counterexample :
    matchesHttpRegexStr "https://é" = true ∧
    decodeToken (encodeTokenStr "https://é").data ≠ jsCodeUnits "https://é" := by
  constructor
  · decide
  · decide

/-- C4: with durable storage enabled and the put succeeding, an artifact over
`MAX_IMAGE_SIZE` is persisted under `encodedUrl/operations` and answered with
a bodyless 307 whose `Location` is the canonical proxy path and whose
`Cache-Control` is `no-store`; an artifact within the ceiling is persisted
and still returned inline with status 200. -/
theorem c4_oversize_redirect_policy (ctx : CacheWriteCtx)
    (hb : ctx.bucketEnabled = true) (hp : ctx.putSucceeds = true) :
    (ctx.bytes.length > ctx.maxImageSize →
      (cacheWriterStep ctx).persisted
          = some (ctx.encodedUrl ++ "/" ++ ctx.operationsPrefix, ctx.bytes) ∧
      (cacheWriterStep ctx).response.statusCode = 307 ∧
      List.lookup "Location" (cacheWriterStep ctx).response.headers
        = some ("/proxy/" ++ ctx.encodedUrl ++ "/" ++ ctx.operationsPrefix) ∧
      List.lookup "Cache-Control" (cacheWriterStep ctx).response.headers
        = some "no-store" ∧
      (cacheWriterStep ctx).response.body = none) ∧
    (ctx.bytes.length ≤ ctx.maxImageSize →
      (cacheWriterStep ctx).persisted
          = some (ctx.encodedUrl ++ "/" ++ ctx.operationsPrefix, ctx.bytes) ∧
      (cacheWriterStep ctx).response.statusCode = 200 ∧
      (cacheWriterStep ctx).response.body = some (String.mk (base64Encode ctx.bytes)) ∧
      (cacheWriterStep ctx).response.isBase64Encoded = true) := by
  constructor
  · intro hbig
    have hstep : cacheWriterStep ctx =
        ⟨some (ctx.encodedUrl ++ "/" ++ ctx.operationsPrefix, ctx.bytes),
         ⟨307, none, false,
          [("Location", "/proxy/" ++ ctx.encodedUrl ++ "/" ++ ctx.operationsPrefix),
           ("Cache-Control", "no-store"),
           ("Server-Timing", ctx.timingLog ++ ",img-upload;dur=" ++ toString ctx.uploadDur)]⟩⟩ := by
      simp [cacheWriterStep, hb, hp, hbig]
    rw [hstep]
    exact ⟨rfl, rfl, rfl, rfl, rfl⟩
  · intro hsmall
    have hns : ¬(ctx.bytes.length > ctx.maxImageSize) := by omega
    have hstep : cacheWriterStep ctx =
        ⟨some (ctx.encodedUrl ++ "/" ++ ctx.operationsPrefix, ctx.bytes),
         inline200 ctx (ctx.timingLog ++ ",img-upload;dur=" ++ toString ctx.uploadDur)⟩ := by
      simp [cacheWriterStep, hb, hp, hns]
    rw [hstep]
    exact ⟨rfl, rfl, rfl, rfl⟩

/-- C4 witness: a 3-byte artifact over a 1-byte ceiling is persisted and
redirected with the canonical location and `no-store`. -/
theorem c4_witness :
    (cacheWriterStep ⟨true, true, 1, "ENC", "width=3", [1, 2, 3], "image/jpeg",
        "ttl", "t", 4⟩).persisted = some ("ENC" ++ "/" ++ "width=3", [1, 2, 3]) ∧
    (cacheWriterStep ⟨true, true, 1, "ENC", "width=3", [1, 2, 3], "image/jpeg",
        "ttl", "t", 4⟩).response.statusCode = 307 ∧
    List.lookup "Location" (cacheWriterStep ⟨true, true, 1, "ENC", "width=3", [1, 2, 3],
        "image/jpeg", "ttl", "t", 4⟩).response.headers
      = some ("/proxy/" ++ "ENC" ++ "/" ++ "width=3") ∧
    List.lookup "Cache-Control" (cacheWriterStep ⟨true, true, 1, "ENC", "width=3", [1, 2, 3],
        "image/jpeg", "ttl", "t", 4⟩).response.headers = some "no-store" ∧
    (cacheWriterStep ⟨true, true, 1, "ENC", "width=3", [1, 2, 3], "image/jpeg",
        "ttl", "t", 4⟩).response.body = none :=
  (c4_oversize_redirect_policy
    ⟨true, true, 1, "ENC", "width=3", [1, 2, 3], "image/jpeg", "ttl", "t", 4⟩
    rfl rfl).1 (by decide)

/-- C5 (amended): when durable storage is disabled, or the put fails while
storage is enabled, nothing is persisted; the artifact is returned inline
with status 200 when it is within the size ceiling, and the handler responds
with the 413 error when it exceeds it (so a persistence failure never turns a
valid, within-bounds result into a client-visible error). -/
theorem c5_no_persist_fallback (ctx : CacheWriteCtx)
    (h : ctx.bucketEnabled = false ∨ (ctx.bucketEnabled = true ∧ ctx.putSucceeds = false)) :
    (cacheWriterStep ctx).persisted = none ∧
    (ctx.bytes.length ≤ ctx.maxImageSize →
      (cacheWriterStep ctx).response.statusCode = 200 ∧
      (cacheWriterStep ctx).response.body = some (String.mk (base64Encode ctx.bytes))) ∧
    (ctx.bytes.length > ctx.maxImageSize →
      (cacheWriterStep ctx).response
        = sendError 413 "Requested transformed image is too big") := by
  have hstep : cacheWriterStep ctx =
      ⟨none, if ctx.bytes.length > ctx.maxImageSize then
        sendError 413 "Requested transformed image is too big"
      else inline200 ctx ctx.timingLog⟩ := by
    rcases h with h | ⟨hb, hp⟩
    · simp only [cacheWriterStep, h]
      rw [if_neg (by simp)]
      split <;> rfl
    · simp only [cacheWriterStep, hb, hp]
      rw [if_pos trivial, if_neg (by simp)]
      split <;> rfl
  refine ⟨by rw [hstep], fun hs => ?_, fun hbig => ?_⟩
  · have hns : ¬(ctx.bytes.length > ctx.maxImageSize) := by omega
    rw [hstep, if_neg hns]
    exact ⟨rfl, rfl⟩
  · rw [hstep, if_pos hbig]

/-- C5 witness: with storage disabled and a small artifact, nothing is
persisted and the artifact is returned inline. -/
theorem c5_witness :
    (cacheWriterStep ⟨false, false, 10, "ENC", "original", [1, 2], "image/jpeg",
        "ttl", "t", 0⟩).persisted = none ∧
    (cacheWriterStep ⟨false, false, 10, "ENC", "original", [1, 2], "image/jpeg",
        "ttl", "t", 0⟩).response.statusCode = 200 := by
  have h := c5_no_persist_fallback
    ⟨false, false, 10, "ENC", "original", [1, 2], "image/jpeg", "ttl", "t", 0⟩ (Or.inl rfl)
  exact ⟨h.1, (h.2.1 (by decide)).1⟩

/-- C5 counterexample: with durable storage disabled and an artifact over the
ceiling, the handler responds 413 rather than returning the artifact inline,
so `Computed → PersistFailedInline` does not hold `always`. -/
theorem c5_counterexample :
    (cacheWriterStep ⟨false, false, 2, "ENC", "original", [1, 2, 3], "image/jpeg",
        "ttl", "t", 0⟩).persisted = none ∧
    (cacheWriterStep ⟨false, false, 2, "ENC", "original", [1, 2, 3], "image/jpeg",
        "ttl", "t", 0⟩).response.statusCode = 413 ∧
    ¬((cacheWriterStep ⟨false, false, 2, "ENC", "original", [1, 2, 3], "image/jpeg",
        "ttl", "t", 0⟩).response.statusCode = 200) := by
  exact ⟨by decide, by decide, by decide⟩

/-- C10: the edge stage passes any `/proxy/...` path through unchanged, and
the image-processing handler derives its Sharp calls by `parseInt` with no
range re-validation: a directly supplied `width=999999` reaches `resize` as
999999 (far above the 4000 bound enforced only at normalization), and
`quality=0` on a lossy format reaches `toFormat` as quality 0. -/
theorem c10_no_range_revalidation :
    urlRewriteHandler ⟨"/proxy/QQ/width=999999", [], none⟩
      = .request ⟨"/proxy/QQ/width=999999", [], none⟩ ∧
    (transformPlan "width=999999" "image/jpeg").resizeWidth = some (some 999999) ∧
    (transformPlan "width=999999" "image/jpeg").resizeCalled = true ∧
    ((999999 : Int) > 4000) ∧
    (transformPlan "format=jpeg,quality=0" "image/jpeg").qualityArg = some (some 0) ∧
    ¬((0 : Int) > 0) := by
  exact ⟨by decide, by decide, by decide, by decide, by decide, by decide⟩

/-- C3 (code-bug evidence): `225.0.0.1` lies in the multicast range
`224.0.0.0/4` that the Origin Guard contract (and the code's own comment on
`BLOCKED_IP_RANGES`) says is blocked, but the regex `^224\.` does not match
it, so `validateUrl` approves a URL whose hostname resolves solely to it and
the handler proceeds past the SSRF check instead of rejecting with 403. -/
theorem c3_multicast_slash4_not_rejected :
    inCidr224slash4 "225.0.0.1" = true ∧
    isBlockedIp "225.0.0.1" = false ∧
    validateUrl ⟨"http:", "evil.example"⟩ ⟨some ["225.0.0.1"], some []⟩
      = .ok ⟨"http:", "evil.example"⟩ ∧
    (originHandler ⟨"GET", "/proxy/" ++ encodeTokenStr "http://evil.example" ++ "/original"⟩
        ⟨⟨some ["225.0.0.1"], some []⟩, .ok ([1, 2, 3], "image/jpeg"), true, [9, 9],
         false, false, 1000, "max-age=31622400", 5, 6, 7⟩).response.statusCode = 200 := by
  refine ⟨by decide, by decide, rfl, by decide⟩

theorem cacheWriterStep_statusCodes (ctx : CacheWriteCtx) :
    (cacheWriterStep ctx).response.statusCode = 200 ∨
    (cacheWriterStep ctx).response.statusCode = 307 ∨
    ∃ m, (cacheWriterStep ctx).response
        = sendError ((cacheWriterStep ctx).response.statusCode) m := by
  simp only [cacheWriterStep]
  split
  · split
    · split
      · right; left; rfl
      · left; rfl
    · split
      · right; right; exact ⟨"Requested transformed image is too big", rfl⟩
      · left; rfl
  · split
    · right; right; exact ⟨"Requested transformed image is too big", rfl⟩
    · left; rfl

theorem originHandler_response_shape (ev : OriginEvent) (w : World) :
    (originHandler ev w).response.statusCode = 200 ∨
    (originHandler ev w).response.statusCode = 307 ∨
    ∃ m, (originHandler ev w).response
        = sendError ((originHandler ev w).response.statusCode) m := by
  simp only [originHandler]
  split
  · right; right; exact ⟨_, rfl⟩
  · split
    · right; right; exact ⟨_, rfl⟩
    · split
      · right; right; exact ⟨_, rfl⟩
      · split
        · right; right; exact ⟨_, rfl⟩
        · split
          · right; right; exact ⟨_, rfl⟩
          · split
            · split
              · right; right; exact ⟨_, rfl⟩
              · split
                · right; right; exact ⟨_, rfl⟩
                · split
                  · right; right; exact ⟨_, rfl⟩
                  · right; right; exact ⟨_, rfl⟩
            · split
              · right; right; exact ⟨_, rfl⟩
              · exact cacheWriterStep_statusCodes _

/-- C8 (amended): every error response of the origin stage (any response that
is neither the 200 inline success nor the 307 redirect) is produced by
`sendError` and therefore carries the JSON body `\x7b"error":"<message>"\x7d`
with `Content-Type: application/json` and `Cache-Control: no-store`; the edge
stage's 400 responses, by contrast, are plain-text error objects whose bodies
are not JSON. -/
theorem c8_error_responses_shape (ev : OriginEvent) (w : World) (req : CFRequest)
    (e : CFError) :
    ((originHandler ev w).response.statusCode ≠ 200 →
     (originHandler ev w).response.statusCode ≠ 307 →
     ∃ m, (originHandler ev w).response
        = sendError ((originHandler ev w).response.statusCode) m) ∧
    (urlRewriteHandler req = .error e →
      e.statusCode = 400 ∧ startsWithStr e.body "\x7b" = false) := by
  constructor
  · intro h200 h307
    rcases originHandler_response_shape ev w with h | h | h
    · exact absurd h h200
    · exact absurd h h307
    · exact h
  · intro h
    unfold urlRewriteHandler at h
    split at h
    · exact absurd h (by simp)
    · split at h
      · injection h with h2
        rw [← h2]
        exact ⟨rfl, by decide⟩
      · split at h
        · injection h with h2
          rw [← h2]
          exact ⟨rfl, by decide⟩
        · split at h
          · injection h with h2
            rw [← h2]
            exact ⟨rfl, by decide⟩
          · exact absurd h (by simp)

/-- C8 witness: the non-GET rejection is `sendError`-shaped, and the concrete
missing-`url` edge error is a plain-text 400. -/
theorem c8_witness :
    (∃ m, (originHandler ⟨"POST", "/x"⟩
        ⟨⟨none, none⟩, .error "x", true, [], false, false, 0, "", 0, 0, 0⟩).response
      = sendError ((originHandler ⟨"POST", "/x"⟩
          ⟨⟨none, none⟩, .error "x", true, [], false, false, 0, "", 0, 0, 0⟩).response.statusCode) m) ∧
    ((⟨400, "Bad Request", "Missing required parameter: url"⟩ : CFError).statusCode = 400 ∧
      startsWithStr (⟨400, "Bad Request",
        "Missing required parameter: url"⟩ : CFError).body "\x7b" = false) := by
  have h := c8_error_responses_shape ⟨"POST", "/x"⟩
    ⟨⟨none, none⟩, .error "x", true, [], false, false, 0, "", 0, 0, 0⟩
    ⟨"/", [], none⟩ ⟨400, "Bad Request", "Missing required parameter: url"⟩
  exact ⟨h.1 (by decide) (by decide), h.2 (by decide)⟩

/-- C8 counterexample: the edge stage's missing-`url` response is an error of
the system whose body is the plain text `Missing required parameter: url`,
which does not have the JSON shape (a JSON error body always begins with a
brace, this body does not), refuting the claim for edge-stage errors. -/
theorem c8_counterexample :
    urlRewriteHandler ⟨"/", [], none⟩
      = .error ⟨400, "Bad Request", "Missing required parameter: url"⟩ ∧
    startsWithStr "Missing required parameter: url" "\x7b" = false ∧
    startsWithStr (jsonErrorBody "Missing required parameter: url") "\x7b" = true := by
  exact ⟨by decide, by decide, by decide⟩

end ImageProxy
